import Mathlib

/-!
# ragent: admission handshake and relay loop of `server.go`

A shallow embedding of `isVKAllowed`, `copysimplex`, `handleSession` and the
proof construction and accept loop of `doserver`.

Byte slices are lists of naturals.  Every call into the outside world
(random source, sockets, signature primitives, the grant directory, the
clock) takes its result from an explicit environment, and every effect a
function performs is recorded, in program order, as an `Event` of the
goroutine that performs it.
-/

namespace Ragent

/-! ## Bytes and Go slice primitives -/

abbrev Byte := Nat
abbrev Bytes := List Byte

/-- Go `make([]byte, n)`: a slice of `n` zero bytes. -/
def makeBytes (n : Nat) : Bytes := List.replicate n 0

/-- Go `copy(dst, src)`: overwrites the first `min (len dst) (len src)` bytes
of `dst` with those of `src` and leaves the rest of `dst` as it was. -/
def goCopy (dst src : Bytes) : Bytes :=
  src.take dst.length ++ dst.drop src.length

/-- Go `[]byte(s)` for the ASCII literals of the program. -/
def bytesOf (s : String) : Bytes := s.toList.map Char.toNat

/-! ## The wildcard key: `crypto.UnFmtKey` is URL-safe base64 decoding -/

def b64urlAlphabet : List Char :=
  "ABCDEFGHIJKLMNOPQRSTUVWXYZabcdefghijklmnopqrstuvwxyz0123456789-_".toList

def b64urlValue (c : Char) : Option Nat :=
  let i := b64urlAlphabet.indexOf c
  if i < 64 then some i else none

/-- Decodes groups of four 6-bit values into three bytes; a final group of
three values gives two bytes and one of two values gives one byte. -/
def b64Groups : List Nat → Bytes
  | a :: b :: c :: d :: rest =>
      let n := ((a * 64 + b) * 64 + c) * 64 + d
      (n / 65536) :: (n / 256 % 256) :: (n % 256) :: b64Groups rest
  | [a, b, c] =>
      let n := (a * 64 + b) * 64 + c
      [n / 1024, n / 4 % 256]
  | [a, b] => [(a * 64 + b) / 16]
  | _ => []

/-- Go `crypto.UnFmtKey`: URL-safe base64 decoding of a formatted key. -/
def unFmtKey (key : String) : Option Bytes :=
  ((key.toList.filter (fun c => c != '=')).mapM b64urlValue).map b64Groups

/-- The `everyone` key of `isVKAllowed`; the decoding error is discarded there,
which leaves the nil slice on failure. -/
def everyone : Bytes :=
  (unFmtKey "----EqP__WY477nofMYUz2MNFBsfa5IK_RBlRvKptDY=").getD []

/-! ## Grants -/

/-- The validity states of `bw2bind`. -/
inductive RegistryValidity where
  | StateUnknown
  | StateValid
  | StateExpired
  | StateRevoked
  | StateError
  deriving DecidableEq, Repr

/-- The two fields of a grant (`objects.DOT`) that the program reads. -/
structure DOT where
  receiverVK : Bytes
  accessURISuffix : String
  deriving DecidableEq, Repr

/-- The `bw2bind` client: `FindDOTsFromVK` answers with the grants and their
validities, or with an error. -/
structure BW2Client where
  findDOTsFromVK : String → Except String (List DOT × List RegistryValidity)

/-- The `for idx, d := range dots` loop of `isVKAllowed`, started at index
`idx` with the grants still to visit.  `validities[idx]` outside the slice is
a run-time panic. -/
def isVKAllowedLoop (vk : Bytes) (validities : List RegistryValidity) :
    Nat → List DOT → Except String Bool
  | _, [] => .ok false
  | idx, d :: ds =>
      match validities[idx]? with
      | none => .error "index out of range"
      | some v =>
          if v ≠ RegistryValidity.StateValid then
            isVKAllowedLoop vk validities (idx + 1) ds
          else if (d.receiverVK == vk || d.receiverVK == everyone)
              && d.accessURISuffix == "1.0/full" then
            .ok true
          else
            isVKAllowedLoop vk validities (idx + 1) ds

/-- `isVKAllowed(vk, cl)`; `ourKey` is `crypto.FmtKey(ourEntity.GetVK())`.
An error of the query is a panic, returned here as `.error`. -/
def isVKAllowed (vk : Bytes) (cl : BW2Client) (ourKey : String) : Except String Bool :=
  match cl.findDOTsFromVK ourKey with
  | .error e => .error e
  | .ok (dots, validities) => isVKAllowedLoop vk validities 0 dots

/-! ## Events -/

/-- The two sockets of a session: `conn` is the accepted client connection,
`acon` the connection dialed to the upstream agent. -/
inductive Conn where
  | conn
  | acon
  deriving DecidableEq, Repr

/-- One effect of a goroutine.  `println` carries the literal text of a
`fmt.Println` call, `report` is the line `fmt.Println(desc, total, "bytes")`
of `copysimplex`, `findDOTs` is the directory query made by `isVKAllowed`,
`spawn` is a `go copysimplex(...)` statement and `read` a `Read` call that
returned. -/
inductive Event where
  | write (c : Conn) (b : Bytes)
  | close (c : Conn)
  | println (line : String)
  | report (desc : String) (total : Int)
  | findDOTs
  | dial
  | spawn (desc : String)
  | read (c : Conn)
  deriving DecidableEq, Repr

/-- How a goroutine ends: it returns, it panics, it stays inside a call that
never returns, or, being inside such a call, it ends with the process when a
panic elsewhere ends the process. -/
inductive Outcome where
  | returned
  | panicked (msg : String)
  | blocked
  | killed
  deriving DecidableEq, Repr

/-- The bytes a trace writes to connection `c`, in order. -/
def bytesWritten (c : Conn) : List Event → Bytes
  | [] => []
  | Event.write c1 b :: es => if c1 = c then b ++ bytesWritten c es else bytesWritten c es
  | _ :: es => bytesWritten c es

/-! ## copysimplex -/

/-- What one `a.Read(buf)` call gives back: `data` is what the call stores at
the start of `buf` (as much of it as fits), `err` tells whether the returned
error is non-nil, and `now` is the clock, in nanoseconds, read by the
`time.Now()` of the same iteration. -/
structure ReadResult where
  data : Bytes
  err : Bool
  now : Nat
  deriving DecidableEq, Repr

/-- Go `int` arithmetic on a 64-bit platform. -/
def wrapInt (x : Int) : Int := (x + 2 ^ 63) % 2 ^ 64 - 2 ^ 63

/-- The constant `time.Second`, in nanoseconds. -/
def second : Int := 1000000000

/-- The `for` loop of `copysimplex` with its variables `total` and `buf`; the
list holds the results of the successive `a.Read` calls, and a call made after
the list is used up never returns. -/
def copyLoop (desc : String) (a b : Conn) (last : Nat) :
    Int → Bytes → List ReadResult → List Event × Outcome
  | _, _, [] => ([], Outcome.blocked)
  | total, buf, r :: rs =>
      let buf1 := goCopy buf r.data
      let count := min r.data.length buf.length
      if count == 0 || r.err then
        ([Event.read a], Outcome.returned)
      else
        let total1 := wrapInt (total + count)
        let line :=
          if (r.now : Int) - (last : Int) > 5 * second then [Event.report desc total1] else []
        let rest := copyLoop desc a b last total1 buf1 rs
        (Event.read a :: Event.write b (buf1.take count) :: (line ++ rest.1), rest.2)

/-- `copysimplex(desc, a, b)`; `start` is the clock read by `last := time.Now()`. -/
def copysimplex (desc : String) (a b : Conn) (start : Nat) (reads : List ReadResult) :
    List Event × Outcome :=
  copyLoop desc a b start 0 (makeBytes 4096) reads

/-! ## handleSession -/

/-- What the client sends in answer to the nonce: the bytes that arrive, and
whether the connection ends after them (closed or broken) or stays open and
silent. -/
structure Incoming where
  bytes : Bytes
  ends : Bool
  deriving DecidableEq, Repr

/-- How an `io.ReadFull` call goes: it fills the buffer, it fails, or it never
returns. -/
inductive ReadFullResult where
  | ok (reply : Bytes)
  | error (e : String)
  | blocked
  deriving DecidableEq, Repr

/-- Go `io.ReadFull(conn, buf)`: the buffer is filled when enough bytes arrive;
when too few arrive and the connection ends, the call fails with `EOF` if
nothing arrived and with `unexpected EOF` otherwise; when too few arrive and
the connection stays open, the call never returns, no deadline being set. -/
def ioReadFull (incoming : Incoming) (buf : Bytes) : ReadFullResult :=
  if buf.length ≤ incoming.bytes.length then .ok (goCopy buf incoming.bytes)
  else if !incoming.ends then .blocked
  else if incoming.bytes.length = 0 then .error "EOF"
  else .error "unexpected EOF"

/-- Everything a session takes from outside. -/
structure SessionEnv where
  /-- Result of `rand.Read`: the random bytes, or an error. -/
  rand : Except String Bytes
  /-- What the client sends in answer to the nonce. -/
  incoming : Incoming
  /-- The primitive `crypto.VerifyBlob(vk, sig, blob)`. -/
  verifyBlob : Bytes → Bytes → Bytes → Bool
  cl : BW2Client
  /-- The text `crypto.FmtKey(ourEntity.GetVK())`. -/
  ourKey : String
  /-- Result of `net.Dial("tcp", agentaddr)`. -/
  dialResult : Except String Unit
  /-- Clock and reads of `copysimplex("local->remote", acon, conn)`. -/
  localStart : Nat
  localReads : List ReadResult
  /-- Clock and reads of `copysimplex("remote->local", conn, acon)`. -/
  remoteStart : Nat
  remoteReads : List ReadResult

/-- What a session does: the events of the goroutine that runs `handleSession`
and how it ends, and the events and end of the goroutine it starts with
`go copysimplex("local->remote", acon, conn)`, when it starts one. -/
structure SessionResult where
  main : List Event
  outcome : Outcome
  relay : List Event := []
  relayOutcome : Option Outcome := none
  deriving DecidableEq, Repr

/-- `handleSession(conn, globalcl, agentaddr)`. -/
def handleSession (env : SessionEnv) : SessionResult :=
  match env.rand with
  | .error e => { main := [], outcome := Outcome.panicked e }
  | .ok rnd =>
    let nonce := goCopy (makeBytes 32) rnd
    let t1 := [Event.write Conn.conn nonce]
    match ioReadFull env.incoming (makeBytes (32 + 64)) with
    | .blocked => { main := t1, outcome := Outcome.blocked }
    | .error e => { main := t1, outcome := Outcome.panicked e }
    | .ok reply =>
      let vk := reply.take 32
      let sig := reply.drop 32
      if !env.verifyBlob vk sig nonce then
        { main := t1, outcome := Outcome.panicked "client sig invalid" }
      else
        let t2 := t1 ++ [Event.println "client signature valid", Event.findDOTs]
        match isVKAllowed vk env.cl env.ourKey with
        | .error e => { main := t2, outcome := Outcome.panicked e }
        | .ok false =>
          { main := t2 ++ [Event.write Conn.conn (bytesOf "FAIL"), Event.close Conn.conn],
            outcome := Outcome.panicked "client is not permitted to use this ragent" }
        | .ok true =>
          let t3 := t2 ++ [Event.println "ragent permission dot exists for client ",
            Event.write Conn.conn (bytesOf "OKAY"), Event.dial]
          match env.dialResult with
          | .error e => { main := t3, outcome := Outcome.panicked e }
          | .ok _ =>
            let bg := copysimplex "local->remote" Conn.acon Conn.conn env.localStart env.localReads
            let fg := copysimplex "remote->local" Conn.conn Conn.acon env.remoteStart env.remoteReads
            let t4 := t3 ++ [Event.println "beginning relay: ", Event.spawn "local->remote"] ++ fg.1
            match fg.2 with
            | Outcome.returned =>
              { main := t4 ++ [Event.println "relay terminated: ", Event.close Conn.acon,
                  Event.close Conn.conn],
                outcome := Outcome.returned, relay := bg.1, relayOutcome := some bg.2 }
            | o => { main := t4, outcome := o, relay := bg.1, relayOutcome := some bg.2 }

/-! ## doserver: the proof and the accept loop -/

/-- The relay identity `ourEntity`: its verify-key and signing key. -/
structure Entity where
  vk : Bytes
  sk : Bytes

/-- The `proof` slice of `doserver`: `make([]byte, 32+64)`, then
`copy(proof, vk)`, then `crypto.SignBlob(sk, vk, proof[32:], cert2.Raw)`, which
stores the signature `signBlob sk vk raw` in the slice it is given. -/
def serverProof (ent : Entity) (signBlob : Bytes → Bytes → Bytes → Bytes) (certRaw : Bytes) :
    Bytes :=
  let proof := goCopy (makeBytes (32 + 64)) ent.vk
  proof.take 32 ++ goCopy (proof.drop 32) (signBlob ent.sk ent.vk certRaw)

/-- The text of the run-time panic of a method call on a nil interface. -/
def nilDereference : String := "runtime error: invalid memory address or nil pointer dereference"

/-- How the process ends.  The list holds the results of the `ln.Accept()`
calls that return while the process lives.  A failed accept gives a nil
`conn`, and `conn.RemoteAddr()` in the print that precedes the `err` check
panics; a panic of a session leaves its goroutine, which was started with `go`
and defers no recover, and ends the process; with neither, the loop stays
inside `Accept`. -/
def processOutcome : List (Except String SessionEnv) → Outcome
  | [] => Outcome.blocked
  | .error _ :: _ => Outcome.panicked nilDereference
  | .ok env :: rest =>
      match (handleSession env).outcome with
      | Outcome.panicked m => Outcome.panicked m
      | _ => processOutcome rest

/-- A goroutine that would stay inside a call ends when the process does. -/
def kill : Outcome → Outcome
  | Outcome.blocked => Outcome.killed
  | o => o

/-- A session in a process that ends as `process`: when that is a panic, the
goroutines of the session that are still inside a call end with it. -/
def endWith (process : Outcome) (r : SessionResult) : SessionResult :=
  match process with
  | Outcome.panicked _ =>
      { r with outcome := kill r.outcome, relayOutcome := r.relayOutcome.map kill }
  | _ => r

/-- The sessions of the accept loop of `doserver`: every accepted connection is
first sent `proof` and then handed to `handleSession`.  `main` lists what the
session does when the process lives long enough; when the process ends by a
panic, the session has done an initial part of it. -/
def sessionsOf (proof : Bytes) (process : Outcome) :
    List (Except String SessionEnv) → List SessionResult
  | [] => []
  | .error _ :: _ => []
  | .ok env :: rest =>
      let r := handleSession env
      endWith process { r with main := Event.write Conn.conn proof :: r.main } ::
        sessionsOf proof process rest

/-- The accept loop of `doserver`: its sessions, and how the process ends. -/
def acceptLoop (proof : Bytes) (accepts : List (Except String SessionEnv)) :
    List SessionResult × Outcome :=
  (sessionsOf proof (processOutcome accepts) accepts, processOutcome accepts)

/-- `doserver` from the construction of `proof` on. -/
def doserver (ent : Entity) (signBlob : Bytes → Bytes → Bytes → Bytes) (certRaw : Bytes)
    (accepts : List (Except String SessionEnv)) : List SessionResult × Outcome :=
  acceptLoop (serverProof ent signBlob certRaw) accepts

/-! ## Predicates and measures used in the statements -/

/-- Whether grant `d` with validity `v` admits the key `vk`. -/
def admits (vk : Bytes) (d : DOT) (v : RegistryValidity) : Prop :=
  v = RegistryValidity.StateValid ∧ d.accessURISuffix = "1.0/full" ∧
    (d.receiverVK = vk ∨ d.receiverVK = everyone)

/-- The events of the handshake of an admitted session, up to the dial. -/
def admittedHandshake (nonce : Bytes) : List Event :=
  [Event.write Conn.conn nonce, Event.println "client signature valid", Event.findDOTs,
   Event.println "ragent permission dot exists for client ",
   Event.write Conn.conn (bytesOf "OKAY"), Event.dial]

/-- The session has reached its relay phase: the main goroutine has dialed,
started the `local->remote` goroutine or read inside `copysimplex`, or the
`local->remote` goroutine exists. -/
def relayStarted (r : SessionResult) : Prop :=
  Event.dial ∈ r.main ∨ (∃ d, Event.spawn d ∈ r.main) ∨ (∃ c, Event.read c ∈ r.main) ∨
    r.relay ≠ [] ∨ r.relayOutcome ≠ none

/-- The directory answers the query, with one validity per grant, and no
grant admits the key `vk`. -/
def noGrantFor (vk : Bytes) (cl : BW2Client) (ourKey : String) : Prop :=
  ∃ dots validities, cl.findDOTsFromVK ourKey = .ok (dots, validities) ∧
    dots.length = validities.length ∧
    ¬ ∃ (i : Nat) (d : DOT) (v : RegistryValidity),
      dots[i]? = some d ∧ validities[i]? = some v ∧ admits vk d v

/-- The handshake of a session fails after the nonce was issued, and `o` is
how the cause makes the session end.  The reply stays incomplete on a
connection that stays open: the read never returns.  The connection ends before
the 96-byte reply is complete, or the signature does not verify, or the
directory query fails, or the directory holds no grant that admits the claimed
key: a panic, with the read error, the query error or the literal of the
program as its text. -/
def handshakeFails (env : SessionEnv) (o : Outcome) : Prop :=
  ∃ rnd, env.rand = .ok rnd ∧
    ((ioReadFull env.incoming (makeBytes (32 + 64)) = .blocked ∧ o = Outcome.blocked) ∨
      (∃ e, ioReadFull env.incoming (makeBytes (32 + 64)) = .error e ∧
        o = Outcome.panicked e) ∨
      ∃ reply, ioReadFull env.incoming (makeBytes (32 + 64)) = .ok reply ∧
        ((env.verifyBlob (reply.take 32) (reply.drop 32) (goCopy (makeBytes 32) rnd) = false ∧
            o = Outcome.panicked "client sig invalid") ∨
          (env.verifyBlob (reply.take 32) (reply.drop 32) (goCopy (makeBytes 32) rnd) = true ∧
            ((∃ e, env.cl.findDOTsFromVK env.ourKey = .error e ∧ o = Outcome.panicked e) ∨
              (noGrantFor (reply.take 32) env.cl env.ourKey ∧
                o = Outcome.panicked "client is not permitted to use this ragent")))))

/-- The reads that `copysimplex` forwards: those before the first read that
returns no bytes or an error. -/
def forwarded : List ReadResult → List ReadResult
  | [] => []
  | r :: rs => if r.data.length == 0 || r.err then [] else r :: forwarded rs

/-- The bytes returned by a list of reads, in order. -/
def bytesRead (reads : List ReadResult) : Bytes :=
  (reads.map (fun r => r.data)).flatten

/-! ## Concrete inputs -/

/-- A directory that answers with no grants. -/
def emptyDirectory : BW2Client := ⟨fun _ => .ok ([], [])⟩

/-- A session whose client closes the connection without sending a reply. -/
def silentClient : SessionEnv :=
  { rand := .ok (List.replicate 32 7), incoming := ⟨[], true⟩, verifyBlob := fun _ _ _ => true,
    cl := emptyDirectory, ourKey := "", dialResult := .ok (),
    localStart := 0, localReads := [], remoteStart := 0, remoteReads := [] }

/-- An admitted session whose upstream ends at once while the client stays
silent. -/
def upstreamEndsFirst : SessionEnv :=
  { rand := .ok (List.replicate 32 7), incoming := ⟨List.replicate 96 1, true⟩,
    verifyBlob := fun _ _ _ => true,
    cl := ⟨fun _ => .ok ([⟨everyone, "1.0/full"⟩], [RegistryValidity.StateValid])⟩,
    ourKey := "", dialResult := .ok (),
    localStart := 0, localReads := [⟨[], false, 0⟩], remoteStart := 0, remoteReads := [] }

/-- A directory with one valid wildcard grant of the required capability. -/
def wildcardDirectory : BW2Client :=
  ⟨fun _ => .ok ([⟨everyone, "1.0/full"⟩], [RegistryValidity.StateValid])⟩

/-- A session that is admitted and then relays nothing. -/
def admittedIdle : SessionEnv :=
  { rand := .ok (List.replicate 32 7), incoming := ⟨List.replicate 96 1, true⟩,
    verifyBlob := fun _ _ _ => true, cl := wildcardDirectory, ourKey := "",
    dialResult := .ok (), localStart := 0, localReads := [], remoteStart := 0,
    remoteReads := [] }

/-- A session with a valid signature and no grant. -/
def ungranted : SessionEnv :=
  { rand := .ok (List.replicate 32 7), incoming := ⟨List.replicate 96 1, true⟩,
    verifyBlob := fun _ _ _ => true, cl := emptyDirectory, ourKey := "",
    dialResult := .ok (), localStart := 0, localReads := [], remoteStart := 0,
    remoteReads := [] }

/-- A session whose reply does not verify. -/
def badSignature : SessionEnv :=
  { rand := .ok (List.replicate 32 7), incoming := ⟨List.replicate 96 1, true⟩,
    verifyBlob := fun _ _ _ => false, cl := wildcardDirectory, ourKey := "",
    dialResult := .ok (), localStart := 0, localReads := [], remoteStart := 0,
    remoteReads := [] }

/-- A directory whose query fails. -/
def brokenDirectory : BW2Client := ⟨fun _ => .error "agent unreachable"⟩

/-- A session with a valid signature whose directory query fails. -/
def queryFails : SessionEnv :=
  { rand := .ok (List.replicate 32 7), incoming := ⟨List.replicate 96 1, true⟩,
    verifyBlob := fun _ _ _ => true, cl := brokenDirectory, ourKey := "",
    dialResult := .ok (), localStart := 0, localReads := [], remoteStart := 0,
    remoteReads := [] }

/-- A session whose client sends three bytes and then keeps the connection
open without sending more. -/
def stalledClient : SessionEnv :=
  { rand := .ok (List.replicate 32 7), incoming := ⟨[1, 2, 3], false⟩,
    verifyBlob := fun _ _ _ => true, cl := wildcardDirectory, ourKey := "",
    dialResult := .ok (), localStart := 0, localReads := [], remoteStart := 0,
    remoteReads := [] }

/-- A relay identity with a 32-byte verify-key. -/
def sampleEntity : Entity := ⟨List.replicate 32 3, List.replicate 32 4⟩

/-- A signing primitive that returns 64 bytes. -/
def sampleSign : Bytes → Bytes → Bytes → Bytes := fun _ _ _ => List.replicate 64 5

/-- Two accepted connections, the first of which sends no reply and closes. -/
def sampleCrash : List (Except String SessionEnv) := [.ok silentClient, .ok admittedIdle]

/-- Two accepted connections. -/
def sampleAccepts : List (Except String SessionEnv) := [.ok admittedIdle, .ok ungranted]

/-! ## Properties of `isVKAllowed` -/

/-- The wildcard key is the 32 bytes that the formatted key decodes to. -/
theorem everyone_bytes :
    everyone = [251, 239, 190, 18, 163, 255, 253, 102, 56, 239, 185, 232, 124, 198, 20, 207,
      99, 13, 20, 27, 31, 107, 146, 10, 253, 16, 101, 70, 242, 169, 180, 54] := by
  decide

theorem isVKAllowedLoop_total (vk : Bytes) (validities : List RegistryValidity) :
    ∀ (dots : List DOT) (idx : Nat), idx + dots.length ≤ validities.length →
      ∃ b, isVKAllowedLoop vk validities idx dots = .ok b := by
  intro dots
  induction dots with
  | nil => intro idx _; exact ⟨false, rfl⟩
  | cons d ds ih =>
    intro idx h
    simp only [List.length_cons] at h
    have hidx : idx < validities.length := by omega
    have hrec := ih (idx + 1) (by omega)
    unfold isVKAllowedLoop
    rw [List.getElem?_eq_getElem hidx]
    simp only []
    split
    · exact hrec
    · split
      · exact ⟨true, rfl⟩
      · exact hrec

theorem isVKAllowedLoop_true_iff (vk : Bytes) (validities : List RegistryValidity) :
    ∀ (dots : List DOT) (idx : Nat), idx + dots.length ≤ validities.length →
      (isVKAllowedLoop vk validities idx dots = .ok true ↔
        ∃ i d v, dots[i]? = some d ∧ validities[idx + i]? = some v ∧ admits vk d v) := by
  intro dots
  induction dots with
  | nil =>
    intro idx _
    simp [isVKAllowedLoop]
  | cons d ds ih =>
    intro idx h
    simp only [List.length_cons] at h
    have hidx : idx < validities.length := by omega
    have hrec := ih (idx + 1) (by omega)
    have hshift : (∃ i d1 v, (d :: ds)[i]? = some d1 ∧ validities[idx + i]? = some v ∧
          admits vk d1 v) ↔
        (admits vk d validities[idx] ∨
          ∃ i d1 v, ds[i]? = some d1 ∧ validities[idx + 1 + i]? = some v ∧ admits vk d1 v) := by
      constructor
      · rintro ⟨i, d1, v, hd, hv, ha⟩
        cases i with
        | zero =>
          left
          simp only [List.getElem?_cons_zero, Option.some.injEq] at hd
          simp only [Nat.add_zero, List.getElem?_eq_getElem hidx, Option.some.injEq] at hv
          subst hd; subst hv; exact ha
        | succ j =>
          right
          refine ⟨j, d1, v, ?_, ?_, ha⟩
          · simpa using hd
          · rw [← hv]; congr 1; omega
      · rintro (ha | ⟨j, d1, v, hd, hv, ha⟩)
        · exact ⟨0, d, validities[idx], by simp, by simp [List.getElem?_eq_getElem hidx], ha⟩
        · refine ⟨j + 1, d1, v, by simpa using hd, ?_, ha⟩
          rw [← hv]; congr 1; omega
    rw [hshift]
    unfold isVKAllowedLoop
    rw [List.getElem?_eq_getElem hidx]
    simp only []
    by_cases hv : validities[idx] = RegistryValidity.StateValid
    · by_cases hm : ((d.receiverVK == vk || d.receiverVK == everyone)
          && d.accessURISuffix == "1.0/full") = true
      · have hadm : admits vk d validities[idx] := by
          simp only [Bool.and_eq_true, Bool.or_eq_true, beq_iff_eq] at hm
          exact ⟨hv, hm.2, hm.1⟩
        rw [hv] at hadm
        simp [hv, hm, hadm]
      · have hadm : ¬ admits vk d validities[idx] := by
          intro ha
          apply hm
          simp only [Bool.and_eq_true, Bool.or_eq_true, beq_iff_eq]
          exact ⟨ha.2.2, ha.2.1⟩
        simp only [hv, ne_eq, not_true_eq_false, if_false, hm, Bool.false_eq_true]
        rw [hrec]
        simp only [hv] at hadm
        simp [hadm]
    · have hadm : ¬ admits vk d validities[idx] := fun ha => hv ha.1
      simp only [ne_eq, hv, not_false_eq_true, if_true]
      rw [hrec]
      simp [hadm]

/-- C1: when the directory query returns the grants `dots` with their validity
states `validities`, `isVKAllowed` returns, and it returns true exactly when
some grant is `StateValid`, has the capability suffix `1.0/full` and has as
receiver the claimed key or the `everyone` key. -/
theorem isVKAllowed_true_iff (vk : Bytes) (cl : BW2Client) (ourKey : String)
    (dots : List DOT) (validities : List RegistryValidity)
    (hq : cl.findDOTsFromVK ourKey = .ok (dots, validities))
    (hlen : dots.length = validities.length) :
    (∃ b, isVKAllowed vk cl ourKey = .ok b) ∧
    (isVKAllowed vk cl ourKey = .ok true ↔
      ∃ (i : Nat) (d : DOT), dots[i]? = some d ∧
        validities[i]? = some RegistryValidity.StateValid ∧
        d.accessURISuffix = "1.0/full" ∧ (d.receiverVK = vk ∨ d.receiverVK = everyone)) := by
  have hle : 0 + dots.length ≤ validities.length := by omega
  unfold isVKAllowed
  rw [hq]
  simp only []
  refine ⟨isVKAllowedLoop_total vk validities dots 0 hle, ?_⟩
  rw [isVKAllowedLoop_true_iff vk validities dots 0 hle]
  constructor
  · rintro ⟨i, d, v, hd, hv, ha⟩
    refine ⟨i, d, hd, ?_, ha.2.1, ha.2.2⟩
    rw [Nat.zero_add] at hv
    rw [hv, ha.1]
  · rintro ⟨i, d, hd, hv, hs, hr⟩
    exact ⟨i, d, RegistryValidity.StateValid, hd, by rw [Nat.zero_add]; exact hv, rfl, hs, hr⟩

/-! ## Properties of `handleSession` -/

theorem bytesOf_OKAY : bytesOf "OKAY" = [79, 75, 65, 89] := by decide

theorem bytesOf_FAIL : bytesOf "FAIL" = [70, 65, 73, 76] := by decide

theorem goCopy_length (dst src : Bytes) : (goCopy dst src).length = dst.length := by
  unfold goCopy
  simp only [List.length_append, List.length_take, List.length_drop]
  omega

theorem ioReadFull_length (incoming : Incoming) (buf reply : Bytes)
    (h : ioReadFull incoming buf = .ok reply) : reply.length = buf.length := by
  unfold ioReadFull at h
  split at h
  · cases h
    exact goCopy_length buf incoming.bytes
  · split at h
    · cases h
    · split at h <;> cases h

theorem bytesWritten_append (c : Conn) (xs ys : List Event) :
    bytesWritten c (xs ++ ys) = bytesWritten c xs ++ bytesWritten c ys := by
  induction xs with
  | nil => rfl
  | cons e es ih =>
    cases e with
    | write c1 b =>
      simp only [List.cons_append, bytesWritten]
      split
      · rw [List.append_assoc]
        exact congrArg (fun t => b ++ t) ih
      · exact ih
    | _ => exact ih

theorem copyLoop_no_write_back (desc : String) (a b : Conn) (hab : b ≠ a) (last : Nat) :
    ∀ (reads : List ReadResult) (total : Int) (buf : Bytes),
      bytesWritten a (copyLoop desc a b last total buf reads).1 = [] := by
  intro reads
  induction reads with
  | nil => intro total buf; rfl
  | cons r rs ih =>
    intro total buf
    unfold copyLoop
    simp only []
    split
    · rfl
    · simp only [bytesWritten, if_neg hab]
      rw [bytesWritten_append, ih]
      split <;> simp [bytesWritten]

/-- Every event of `copysimplex` is a read of `a`, a write to `b` or a report. -/
theorem copyLoop_events (desc : String) (a b : Conn) (last : Nat) :
    ∀ (reads : List ReadResult) (total : Int) (buf : Bytes) (e : Event),
      e ∈ (copyLoop desc a b last total buf reads).1 →
        e = Event.read a ∨ (∃ bs, e = Event.write b bs) ∨ ∃ n, e = Event.report desc n := by
  intro reads
  induction reads with
  | nil => intro total buf e he; simp [copyLoop] at he
  | cons r rs ih =>
    intro total buf e he
    unfold copyLoop at he
    simp only [] at he
    split at he
    · simp only [List.mem_singleton] at he
      exact Or.inl he
    · simp only [List.mem_cons, List.mem_append] at he
      rcases he with he | he | he | he
      · exact Or.inl he
      · exact Or.inr (Or.inl ⟨_, he⟩)
      · split at he
        · simp only [List.mem_singleton] at he
          exact Or.inr (Or.inr ⟨_, he⟩)
        · simp at he
      · exact ih _ _ e he

/-- The trace of a session that passes the handshake. -/
theorem handleSession_admitted_trace (env : SessionEnv) (rnd reply : Bytes)
    (hrand : env.rand = .ok rnd)
    (hread : ioReadFull env.incoming (makeBytes (32 + 64)) = .ok reply)
    (hsig : env.verifyBlob (reply.take 32) (reply.drop 32) (goCopy (makeBytes 32) rnd) = true)
    (hallow : isVKAllowed (reply.take 32) env.cl env.ourKey = .ok true) :
    (goCopy (makeBytes 32) rnd).length = 32 ∧ reply.length = 96 ∧
    (∃ rest, (handleSession env).main = admittedHandshake (goCopy (makeBytes 32) rnd) ++ rest ∧
      Event.dial ∉ rest) ∧
    bytesWritten Conn.conn (handleSession env).main =
      goCopy (makeBytes 32) rnd ++ [79, 75, 65, 89] := by
  have hnb : ∀ (st : Nat) (rs : List ReadResult),
      bytesWritten Conn.conn (copysimplex "remote->local" Conn.conn Conn.acon st rs).1 = [] :=
    fun st rs => copyLoop_no_write_back _ _ _ (by decide) _ _ _ _
  have hnd : ∀ (st : Nat) (rs : List ReadResult),
      Event.dial ∉ (copysimplex "remote->local" Conn.conn Conn.acon st rs).1 := by
    intro st rs hmem
    rcases copyLoop_events _ _ _ _ _ _ _ _ hmem with h | ⟨_, h⟩ | ⟨_, h⟩ <;> cases h
  refine ⟨by rw [goCopy_length]; rfl, by rw [ioReadFull_length _ _ _ hread]; rfl, ?_, ?_⟩
  · unfold handleSession
    simp only [hrand, hread, hsig, hallow, Bool.not_true, Bool.false_eq_true, if_false]
    cases hd : env.dialResult with
    | error e => exact ⟨[], by simp [admittedHandshake], by simp⟩
    | ok u =>
      simp only []
      have hnd1 := hnd env.remoteStart env.remoteReads
      generalize copysimplex "remote->local" Conn.conn Conn.acon env.remoteStart
        env.remoteReads = fg at hnd1
      obtain ⟨ev, o⟩ := fg
      cases o with
      | returned =>
        exact ⟨Event.println "beginning relay: " :: Event.spawn "local->remote" ::
          (ev ++ [Event.println "relay terminated: ", Event.close Conn.acon,
            Event.close Conn.conn]), by simp [admittedHandshake], by simpa using hnd1⟩
      | panicked m =>
        exact ⟨Event.println "beginning relay: " :: Event.spawn "local->remote" :: ev,
          by simp [admittedHandshake], by simpa using hnd1⟩
      | blocked =>
        exact ⟨Event.println "beginning relay: " :: Event.spawn "local->remote" :: ev,
          by simp [admittedHandshake], by simpa using hnd1⟩
      | killed =>
        exact ⟨Event.println "beginning relay: " :: Event.spawn "local->remote" :: ev,
          by simp [admittedHandshake], by simpa using hnd1⟩
  · unfold handleSession
    simp only [hrand, hread, hsig, hallow, Bool.not_true, Bool.false_eq_true, if_false]
    cases hd : env.dialResult with
    | error e => simp [bytesWritten, bytesOf_OKAY]
    | ok u =>
      simp only []
      have hnb1 := hnb env.remoteStart env.remoteReads
      generalize copysimplex "remote->local" Conn.conn Conn.acon env.remoteStart
        env.remoteReads = fg at hnb1
      obtain ⟨ev, o⟩ := fg
      simp only [] at hnb1
      cases o <;> simp [bytesWritten, bytesWritten_append, bytesOf_OKAY, hnb1]

/-- C2: when the random source gives the nonce, the 96-byte reply is read in
full, its signature verifies against that nonce under the claimed key and
`isVKAllowed` returns true, the goroutine of `handleSession` first performs
the admitted handshake, which ends with the write of `OKAY` followed by the
dial; it dials nowhere else, and all it ever writes to the client is the
32-byte nonce followed by the four bytes of `OKAY`. -/
theorem handleSession_admitted (env : SessionEnv) (rnd reply : Bytes)
    (hrand : env.rand = .ok rnd)
    (hread : ioReadFull env.incoming (makeBytes (32 + 64)) = .ok reply)
    (hsig : env.verifyBlob (reply.take 32) (reply.drop 32) (goCopy (makeBytes 32) rnd) = true)
    (hallow : isVKAllowed (reply.take 32) env.cl env.ourKey = .ok true) :
    (goCopy (makeBytes 32) rnd).length = 32 ∧ reply.length = 96 ∧
    (∃ rest, (handleSession env).main = admittedHandshake (goCopy (makeBytes 32) rnd) ++ rest ∧
      Event.dial ∉ rest) ∧
    bytesWritten Conn.conn (handleSession env).main =
      goCopy (makeBytes 32) rnd ++ [79, 75, 65, 89] :=
  handleSession_admitted_trace env rnd reply hrand hread hsig hallow

/-- C3: when the signature over the issued nonce verifies and `isVKAllowed`
returns false, `handleSession` writes the nonce, then `FAIL`, then closes the
client connection and stops: nothing but the nonce and the four bytes of `FAIL`
is written to the client, nothing is dialed and no relay goroutine exists. -/
theorem handleSession_not_allowed (env : SessionEnv) (rnd reply : Bytes)
    (hrand : env.rand = .ok rnd)
    (hread : ioReadFull env.incoming (makeBytes (32 + 64)) = .ok reply)
    (hsig : env.verifyBlob (reply.take 32) (reply.drop 32) (goCopy (makeBytes 32) rnd) = true)
    (hallow : isVKAllowed (reply.take 32) env.cl env.ourKey = .ok false) :
    (handleSession env).main =
      [Event.write Conn.conn (goCopy (makeBytes 32) rnd), Event.println "client signature valid",
        Event.findDOTs, Event.write Conn.conn (bytesOf "FAIL"), Event.close Conn.conn] ∧
    bytesWritten Conn.conn (handleSession env).main =
      goCopy (makeBytes 32) rnd ++ [70, 65, 73, 76] ∧
    (handleSession env).outcome =
      Outcome.panicked "client is not permitted to use this ragent" ∧
    (handleSession env).relay = [] ∧ (handleSession env).relayOutcome = none := by
  unfold handleSession
  simp only [hrand, hread, hsig, hallow, Bool.not_true, Bool.false_eq_true, if_false]
  simp [bytesWritten, bytesOf_FAIL]

/-- C4: when the 96-byte reply fails signature verification against the
issued nonce under the claimed key, `handleSession` stops at once with the
panic `client sig invalid`: the nonce is the only thing written, the directory
is not queried, nothing is dialed and no relay goroutine exists. -/
theorem handleSession_bad_signature (env : SessionEnv) (rnd reply : Bytes)
    (hrand : env.rand = .ok rnd)
    (hread : ioReadFull env.incoming (makeBytes (32 + 64)) = .ok reply)
    (hsig : env.verifyBlob (reply.take 32) (reply.drop 32) (goCopy (makeBytes 32) rnd) = false) :
    (handleSession env).main = [Event.write Conn.conn (goCopy (makeBytes 32) rnd)] ∧
    (handleSession env).outcome = Outcome.panicked "client sig invalid" ∧
    bytesWritten Conn.conn (handleSession env).main = goCopy (makeBytes 32) rnd ∧
    Event.findDOTs ∉ (handleSession env).main ∧ Event.dial ∉ (handleSession env).main ∧
    (handleSession env).relay = [] ∧ (handleSession env).relayOutcome = none := by
  unfold handleSession
  simp only [hrand, hread, hsig, Bool.not_false, if_true]
  simp [bytesWritten]

/-- C6: in every run of `handleSession`, if the upstream is dialed or
`copysimplex` is started in either direction, then the full 96-byte reply was
read, its signature verified against the nonce of this session, `isVKAllowed`
returned true, and everything the main goroutine did before the dial is the
admitted handshake, which ends with the write of `OKAY`. -/
theorem handleSession_relay_only_after_admission (env : SessionEnv)
    (h : relayStarted (handleSession env)) :
    ∃ rnd reply, env.rand = .ok rnd ∧
      ioReadFull env.incoming (makeBytes (32 + 64)) = .ok reply ∧
      env.verifyBlob (reply.take 32) (reply.drop 32) (goCopy (makeBytes 32) rnd) = true ∧
      isVKAllowed (reply.take 32) env.cl env.ourKey = .ok true ∧
      ∃ rest, (handleSession env).main = admittedHandshake (goCopy (makeBytes 32) rnd) ++ rest ∧
        Event.dial ∉ rest := by
  cases hrand : env.rand with
  | error e =>
    exfalso
    unfold relayStarted handleSession at h
    simp [hrand] at h
  | ok rnd =>
    cases hread : ioReadFull env.incoming (makeBytes (32 + 64)) with
    | blocked =>
      exfalso
      unfold relayStarted handleSession at h
      simp [hrand, hread] at h
    | error e =>
      exfalso
      unfold relayStarted handleSession at h
      simp [hrand, hread] at h
    | ok reply =>
      cases hsig : env.verifyBlob (reply.take 32) (reply.drop 32) (goCopy (makeBytes 32) rnd) with
      | false =>
        exfalso
        unfold relayStarted handleSession at h
        simp [hrand, hread, hsig] at h
      | true =>
        cases hallow : isVKAllowed (reply.take 32) env.cl env.ourKey with
        | error e =>
          exfalso
          unfold relayStarted handleSession at h
          simp [hrand, hread, hsig, hallow] at h
        | ok b =>
          cases b with
          | false =>
            exfalso
            unfold relayStarted handleSession at h
            simp [hrand, hread, hsig, hallow] at h
          | true =>
            exact ⟨rnd, reply, rfl, rfl, hsig, hallow,
              (handleSession_admitted_trace env rnd reply hrand hread hsig hallow).2.2.1⟩

/-! ## Handshake failures -/

theorem isVKAllowed_query_error (vk : Bytes) (cl : BW2Client) (ourKey e : String)
    (h : cl.findDOTsFromVK ourKey = .error e) : isVKAllowed vk cl ourKey = .error e := by
  unfold isVKAllowed
  rw [h]

theorem isVKAllowed_noGrant (vk : Bytes) (cl : BW2Client) (ourKey : String)
    (h : noGrantFor vk cl ourKey) : isVKAllowed vk cl ourKey = .ok false := by
  obtain ⟨dots, validities, hq, hlen, hno⟩ := h
  have hle : 0 + dots.length ≤ validities.length := by omega
  unfold isVKAllowed
  rw [hq]
  simp only []
  obtain ⟨b, hb⟩ := isVKAllowedLoop_total vk validities dots 0 hle
  cases b with
  | false => exact hb
  | true =>
    exfalso
    apply hno
    obtain ⟨i, d, v, hd, hv, ha⟩ := (isVKAllowedLoop_true_iff vk validities dots 0 hle).mp hb
    rw [Nat.zero_add] at hv
    exact ⟨i, d, v, hd, hv, ha⟩

theorem handleSession_no_grant_eq (env : SessionEnv) (rnd reply : Bytes)
    (hrand : env.rand = .ok rnd)
    (hread : ioReadFull env.incoming (makeBytes (32 + 64)) = .ok reply)
    (hsig : env.verifyBlob (reply.take 32) (reply.drop 32) (goCopy (makeBytes 32) rnd) = true)
    (hno : noGrantFor (reply.take 32) env.cl env.ourKey) :
    handleSession env =
      { main := [Event.write Conn.conn (goCopy (makeBytes 32) rnd),
          Event.println "client signature valid", Event.findDOTs,
          Event.write Conn.conn (bytesOf "FAIL"), Event.close Conn.conn],
        outcome := Outcome.panicked "client is not permitted to use this ragent" } := by
  have hallow := isVKAllowed_noGrant _ _ _ hno
  unfold handleSession
  simp only [hrand, hread, hsig, hallow, Bool.not_true, Bool.false_eq_true, if_false]
  rfl

/-- What `handleSession` does on each cause of a failed handshake. -/
theorem handleSession_failure_eq (env : SessionEnv) (o : Outcome) (h : handshakeFails env o) :
    (handleSession env).outcome = o ∧ ¬ relayStarted (handleSession env) ∧
    (o = Outcome.blocked → ∃ rnd, env.rand = .ok rnd ∧
      (handleSession env).main = [Event.write Conn.conn (goCopy (makeBytes 32) rnd)]) := by
  obtain ⟨rnd, hrand, hcase⟩ := h
  rcases hcase with ⟨hread, ho⟩ | ⟨e, hread, ho⟩ | ⟨reply, hread, hcase⟩
  · subst ho
    refine ⟨?_, ?_, fun _ => ⟨rnd, hrand, ?_⟩⟩
    · unfold handleSession
      simp [hrand, hread]
    · unfold relayStarted handleSession
      simp [hrand, hread]
    · unfold handleSession
      simp [hrand, hread]
  · subst ho
    refine ⟨?_, ?_, fun hc => by cases hc⟩
    · unfold handleSession
      simp [hrand, hread]
    · unfold relayStarted handleSession
      simp [hrand, hread]
  · rcases hcase with ⟨hsig, ho⟩ | ⟨hsig, ⟨e, hq, ho⟩ | ⟨hno, ho⟩⟩
    · subst ho
      refine ⟨?_, ?_, fun hc => by cases hc⟩
      · unfold handleSession
        simp [hrand, hread, hsig]
      · unfold relayStarted handleSession
        simp [hrand, hread, hsig]
    · subst ho
      have hallow := isVKAllowed_query_error (reply.take 32) _ _ _ hq
      refine ⟨?_, ?_, fun hc => by cases hc⟩
      · unfold handleSession
        simp [hrand, hread, hsig, hallow]
      · unfold relayStarted handleSession
        simp [hrand, hread, hsig, hallow]
    · subst ho
      rw [handleSession_no_grant_eq env rnd reply hrand hread hsig hno]
      unfold relayStarted
      exact ⟨rfl, by simp, fun hc => by cases hc⟩

theorem kill_ne_blocked (o : Outcome) : kill o ≠ Outcome.blocked := by
  cases o <;> simp [kill]

/-- A session that panics ends the process: the accept loop ends in a panic. -/
theorem processOutcome_of_panic (env : SessionEnv) (m : String)
    (hp : (handleSession env).outcome = Outcome.panicked m) :
    ∀ (accepts : List (Except String SessionEnv)), Except.ok env ∈ accepts →
      ∃ m1, processOutcome accepts = Outcome.panicked m1 := by
  intro accepts
  induction accepts with
  | nil => intro h; simp at h
  | cons a rest ih =>
    intro h
    cases a with
    | error e => exact ⟨nilDereference, rfl⟩
    | ok env1 =>
      cases ho : (handleSession env1).outcome with
      | panicked m1 => exact ⟨m1, by simp only [processOutcome, ho]⟩
      | returned =>
        rcases List.mem_cons.mp h with heq | hmem
        · cases heq
          rw [hp] at ho
          cases ho
        · obtain ⟨m1, h1⟩ := ih hmem
          exact ⟨m1, by simp only [processOutcome, ho, h1]⟩
      | blocked =>
        rcases List.mem_cons.mp h with heq | hmem
        · cases heq
          rw [hp] at ho
          cases ho
        · obtain ⟨m1, h1⟩ := ih hmem
          exact ⟨m1, by simp only [processOutcome, ho, h1]⟩
      | killed =>
        rcases List.mem_cons.mp h with heq | hmem
        · cases heq
          rw [hp] at ho
          cases ho
        · obtain ⟨m1, h1⟩ := ih hmem
          exact ⟨m1, by simp only [processOutcome, ho, h1]⟩

/-- When the process ends in a panic no goroutine of a session is left inside
a call. -/
theorem sessionsOf_ended (proof : Bytes) (m : String) :
    ∀ (accepts : List (Except String SessionEnv)) (r : SessionResult),
      r ∈ sessionsOf proof (Outcome.panicked m) accepts →
      r.outcome ≠ Outcome.blocked ∧ r.relayOutcome ≠ some Outcome.blocked := by
  intro accepts
  induction accepts with
  | nil => intro r h; simp [sessionsOf] at h
  | cons a rest ih =>
    intro r h
    cases a with
    | error e => simp [sessionsOf] at h
    | ok env =>
      simp only [sessionsOf, List.mem_cons] at h
      rcases h with h | h
      · subst h
        refine ⟨kill_ne_blocked _, ?_⟩
        simp only [endWith]
        cases (handleSession env).relayOutcome with
        | none => simp
        | some o =>
          simp only [Option.map_some', ne_eq, Option.some.injEq]
          exact kill_ne_blocked o
      · exact ih r h

/-- A client that sends three bytes and then keeps the connection open leaves
the session inside the read of the reply: the nonce is all that was written,
nothing is closed and nothing panics. -/
theorem handleSession_stalled_reply :
    handshakeFails stalledClient Outcome.blocked ∧
    (handleSession stalledClient).main = [Event.write Conn.conn (List.replicate 32 7)] ∧
    (handleSession stalledClient).outcome = Outcome.blocked := by
  refine ⟨⟨List.replicate 32 7, rfl, Or.inl ⟨rfl, rfl⟩⟩, by decide, by decide⟩

/-- C5, counterexample: for a client that closes the connection without
sending a reply the handshake fails, yet `handleSession` never closes the client
connection and ends in the panic `EOF`, and in a process that also serves an
admitted, idle session the panic ends the process and that session with it. -/
theorem handleSession_short_reply_panics_unclosed :
    handshakeFails silentClient (Outcome.panicked "EOF") ∧
    Event.close Conn.conn ∉ (handleSession silentClient).main ∧
    (handleSession silentClient).outcome = Outcome.panicked "EOF" ∧
    (doserver sampleEntity sampleSign [48, 130] sampleCrash).2 = Outcome.panicked "EOF" ∧
    (doserver sampleEntity sampleSign [48, 130] sampleCrash).1.map (fun r => r.outcome) =
      [Outcome.panicked "EOF", Outcome.killed] := by
  refine ⟨⟨List.replicate 32 7, rfl, Or.inr (Or.inl ⟨"EOF", rfl, rfl⟩)⟩, by decide, by decide,
    by decide, by decide⟩

/-- C5, amended: a handshake failure is not confined to its session.  When the
reply stays incomplete on a connection that stays open, `handleSession` stays
inside the read, with the nonce as the only thing written and nothing closed.
On every other cause (the connection ends before the 96-byte reply is complete,
the signature does not verify, the directory query fails, no grant admits the
claimed key) `handleSession` ends in a panic with the text of the cause, and in
every process whose accept loop has accepted this connection the process ends
in a panic and no goroutine of any session stays inside a call.  In no case is
the upstream dialed or a relay started, and when the cause is that no grant
admits the key the session does exactly this: nonce, print, query, `FAIL`,
close of the client connection. -/
theorem handleSession_failure_panics (env : SessionEnv) (o : Outcome)
    (h : handshakeFails env o) :
    (handleSession env).outcome = o ∧
    ¬ relayStarted (handleSession env) ∧
    (o = Outcome.blocked → ∃ rnd, env.rand = .ok rnd ∧
      (handleSession env).main = [Event.write Conn.conn (goCopy (makeBytes 32) rnd)]) ∧
    (∀ rnd reply, env.rand = .ok rnd →
      ioReadFull env.incoming (makeBytes (32 + 64)) = .ok reply →
      env.verifyBlob (reply.take 32) (reply.drop 32) (goCopy (makeBytes 32) rnd) = true →
      noGrantFor (reply.take 32) env.cl env.ourKey →
      (handleSession env).main =
        [Event.write Conn.conn (goCopy (makeBytes 32) rnd),
          Event.println "client signature valid", Event.findDOTs,
          Event.write Conn.conn (bytesOf "FAIL"), Event.close Conn.conn]) ∧
    (o ≠ Outcome.blocked →
      (∃ msg, o = Outcome.panicked msg) ∧
      ∀ (ent : Entity) (signBlob : Bytes → Bytes → Bytes → Bytes) (certRaw : Bytes)
        (accepts : List (Except String SessionEnv)), Except.ok env ∈ accepts →
        (∃ m, (doserver ent signBlob certRaw accepts).2 = Outcome.panicked m) ∧
        ∀ r ∈ (doserver ent signBlob certRaw accepts).1,
          r.outcome ≠ Outcome.blocked ∧ r.relayOutcome ≠ some Outcome.blocked) := by
  have hmain := handleSession_failure_eq env o h
  refine ⟨hmain.1, hmain.2.1, hmain.2.2, ?_, ?_⟩
  · intro rnd reply hrand hread hsig hno
    rw [handleSession_no_grant_eq env rnd reply hrand hread hsig hno]
  · intro hnb
    have hmsg : ∃ msg, o = Outcome.panicked msg := by
      obtain ⟨rnd, _, hcase⟩ := h
      rcases hcase with ⟨_, ho⟩ | ⟨e, _, ho⟩ | ⟨reply, _, hcase⟩
      · exact absurd ho hnb
      · exact ⟨e, ho⟩
      · rcases hcase with ⟨_, ho⟩ | ⟨_, ⟨e, _, ho⟩ | ⟨_, ho⟩⟩
        · exact ⟨_, ho⟩
        · exact ⟨e, ho⟩
        · exact ⟨_, ho⟩
    refine ⟨hmsg, ?_⟩
    obtain ⟨msg, hmsg⟩ := hmsg
    intro ent signBlob certRaw accepts hmem
    have hp : (handleSession env).outcome = Outcome.panicked msg := by rw [hmain.1, hmsg]
    obtain ⟨m1, h1⟩ := processOutcome_of_panic env msg hp accepts hmem
    refine ⟨⟨m1, h1⟩, ?_⟩
    intro r hr
    unfold doserver acceptLoop at hr
    simp only [h1] at hr
    exact sessionsOf_ended _ m1 accepts r hr

/-! ## The relay loop -/

theorem goCopy_take (buf data : Bytes) (h : data.length ≤ buf.length) :
    (goCopy buf data).take (min data.length buf.length) = data := by
  unfold goCopy
  rw [Nat.min_eq_left h, List.take_of_length_le h, List.take_left]

theorem copyLoop_forwards (desc : String) (a b : Conn) (last : Nat) :
    ∀ (reads : List ReadResult) (total : Int) (buf : Bytes),
      (∀ r ∈ reads, r.data.length ≤ buf.length) →
      bytesWritten b (copyLoop desc a b last total buf reads).1 = bytesRead (forwarded reads) := by
  intro reads
  induction reads with
  | nil => intro total buf _; rfl
  | cons r rs ih =>
    intro total buf hfit
    have hr : r.data.length ≤ buf.length := hfit r (List.mem_cons_self _ _)
    have hrs : ∀ x ∈ rs, x.data.length ≤ (goCopy buf r.data).length := by
      intro x hx
      rw [goCopy_length]
      exact hfit x (List.mem_cons_of_mem _ hx)
    unfold copyLoop forwarded
    simp only [Nat.min_eq_left hr]
    split
    · simp [bytesWritten, bytesRead]
    · have htake := goCopy_take buf r.data hr
      rw [Nat.min_eq_left hr] at htake
      simp only [bytesWritten, if_true, htake]
      rw [bytesWritten_append, ih _ _ hrs]
      have hline : ∀ (n : Int), bytesWritten b
          (if (r.now : Int) - (last : Int) > 5 * second then [Event.report desc n] else []) = [] := by
        intro n; split <;> rfl
      rw [hline]
      simp [bytesRead]

/-- Relay fidelity up to the last read: when every read fits the 4096-byte
buffer, what `copysimplex` writes to `b` is the concatenation of the bytes of
the reads before the first one that returns no bytes or an error. -/
theorem copysimplex_forwards (desc : String) (a b : Conn) (start : Nat)
    (reads : List ReadResult) (hfit : ∀ r ∈ reads, r.data.length ≤ 4096) :
    bytesWritten b (copysimplex desc a b start reads).1 = bytesRead (forwarded reads) := by
  unfold copysimplex
  apply copyLoop_forwards
  intro r hr
  unfold makeBytes
  rw [List.length_replicate]
  exact hfit r hr

theorem makeBytes_length (n : Nat) : (makeBytes n).length = n := by
  unfold makeBytes
  rw [List.length_replicate]

/-- One iteration of the loop of `copysimplex` that ends it. -/
theorem copyLoop_stop (desc : String) (a b : Conn) (last : Nat) (total : Int) (buf : Bytes)
    (r : ReadResult) (rs : List ReadResult) (h : r.data = [] ∨ r.err = true) :
    copyLoop desc a b last total buf (r :: rs) = ([Event.read a], Outcome.returned) := by
  unfold copyLoop
  rcases h with h | h <;> simp [h]

/-- One iteration of the loop of `copysimplex` that forwards a read. -/
theorem copyLoop_step (desc : String) (a b : Conn) (last : Nat) (total : Int) (buf : Bytes)
    (r : ReadResult) (rs : List ReadResult) (hfit : r.data.length ≤ buf.length)
    (hne : r.data ≠ []) (herr : r.err = false) :
    copyLoop desc a b last total buf (r :: rs) =
      (Event.read a :: Event.write b r.data ::
        ((if (r.now : Int) - (last : Int) > 5 * second then
            [Event.report desc (wrapInt (total + r.data.length))] else []) ++
          (copyLoop desc a b last (wrapInt (total + r.data.length)) (goCopy buf r.data) rs).1),
       (copyLoop desc a b last (wrapInt (total + r.data.length)) (goCopy buf r.data) rs).2) := by
  have hpos : 0 < r.data.length := List.length_pos.mpr hne
  have hbuf : buf.length ≠ 0 := by omega
  have htake := goCopy_take buf r.data hfit
  rw [Nat.min_eq_left hfit] at htake
  conv => lhs; unfold copyLoop
  simp only [Nat.min_eq_left hfit, herr, htake]
  have h0 : (r.data.length == 0) = false := by
    rw [beq_eq_false_iff_ne]; omega
  simp [h0]

/-- C7, at the failing input: a read that returns two bytes together with an
error ends the loop, and the two bytes it returned are never written. -/
theorem copysimplex_drops_bytes_read_with_error :
    copysimplex "remote->local" Conn.conn Conn.acon 0 [⟨[104, 105], true, 0⟩] =
      ([Event.read Conn.conn], Outcome.returned) ∧
    bytesWritten Conn.acon
      (copysimplex "remote->local" Conn.conn Conn.acon 0 [⟨[104, 105], true, 0⟩]).1 = [] ∧
    bytesRead [⟨[104, 105], true, 0⟩] = [104, 105] := by
  have h : copysimplex "remote->local" Conn.conn Conn.acon 0 [⟨[104, 105], true, 0⟩] =
      ([Event.read Conn.conn], Outcome.returned) :=
    copyLoop_stop _ _ _ _ _ _ _ _ (Or.inr rfl)
  rw [h]
  exact ⟨rfl, rfl, rfl⟩

/-- C10, at the failing input: with the loop started at time 0, two one-byte
reads at 6.0 s and 6.1 s each print a report, 0.1 s apart. -/
theorem copysimplex_reports_every_read_after_five_seconds :
    (copysimplex "remote->local" Conn.conn Conn.acon 0
      [⟨[1], false, 6000000000⟩, ⟨[2], false, 6100000000⟩]).1 =
      [Event.read Conn.conn, Event.write Conn.acon [1], Event.report "remote->local" 1,
       Event.read Conn.conn, Event.write Conn.acon [2], Event.report "remote->local" 2] := by
  unfold copysimplex
  rw [copyLoop_step _ _ _ _ _ _ _ _ (by rw [makeBytes_length]; decide) (by decide) rfl]
  rw [copyLoop_step _ _ _ _ _ _ _ _ (by rw [goCopy_length, makeBytes_length]; decide)
    (by decide) rfl]
  simp only [copyLoop]
  decide

/-- The whole run of an admitted session whose upstream was dialed, by the way
the `remote->local` copy of the main goroutine ends: only when that copy
returns does the session print `relay terminated` and close both
connections. -/
theorem handleSession_relay_eq (env : SessionEnv) (rnd reply : Bytes) (u : Unit)
    (hrand : env.rand = .ok rnd)
    (hread : ioReadFull env.incoming (makeBytes (32 + 64)) = .ok reply)
    (hsig : env.verifyBlob (reply.take 32) (reply.drop 32) (goCopy (makeBytes 32) rnd) = true)
    (hallow : isVKAllowed (reply.take 32) env.cl env.ourKey = .ok true)
    (hdial : env.dialResult = .ok u) :
    handleSession env =
      { main := admittedHandshake (goCopy (makeBytes 32) rnd) ++
          [Event.println "beginning relay: ", Event.spawn "local->remote"] ++
          (copysimplex "remote->local" Conn.conn Conn.acon env.remoteStart env.remoteReads).1 ++
          (if (copysimplex "remote->local" Conn.conn Conn.acon env.remoteStart
                env.remoteReads).2 = Outcome.returned then
            [Event.println "relay terminated: ", Event.close Conn.acon, Event.close Conn.conn]
           else []),
        outcome :=
          (copysimplex "remote->local" Conn.conn Conn.acon env.remoteStart env.remoteReads).2,
        relay :=
          (copysimplex "local->remote" Conn.acon Conn.conn env.localStart env.localReads).1,
        relayOutcome := some
          (copysimplex "local->remote" Conn.acon Conn.conn env.localStart env.localReads).2 } := by
  unfold handleSession
  simp only [hrand, hread, hsig, hallow, hdial, Bool.not_true, Bool.false_eq_true, if_false]
  generalize copysimplex "remote->local" Conn.conn Conn.acon env.remoteStart
    env.remoteReads = fg
  obtain ⟨ev, o⟩ := fg
  cases o <;> simp [admittedHandshake]

/-- C8, at the failing input: the `local->remote` direction has returned, yet
neither goroutine closes a connection and the main goroutine stays inside the
read of the client connection. -/
theorem handleSession_upstream_end_closes_nothing :
    (handleSession upstreamEndsFirst).relayOutcome = some Outcome.returned ∧
    (handleSession upstreamEndsFirst).relay = [Event.read Conn.acon] ∧
    (handleSession upstreamEndsFirst).outcome = Outcome.blocked ∧
    (handleSession upstreamEndsFirst).main =
      [Event.write Conn.conn (List.replicate 32 7), Event.println "client signature valid",
       Event.findDOTs, Event.println "ragent permission dot exists for client ",
       Event.write Conn.conn [79, 75, 65, 89], Event.dial,
       Event.println "beginning relay: ", Event.spawn "local->remote"] := by
  have hbg : copysimplex "local->remote" Conn.acon Conn.conn upstreamEndsFirst.localStart
      upstreamEndsFirst.localReads = ([Event.read Conn.acon], Outcome.returned) :=
    copyLoop_stop _ _ _ _ _ _ _ _ (Or.inl rfl)
  have hfg : copysimplex "remote->local" Conn.conn Conn.acon upstreamEndsFirst.remoteStart
      upstreamEndsFirst.remoteReads = ([], Outcome.blocked) := by
    unfold copysimplex
    simp only [upstreamEndsFirst, copyLoop]
  rw [handleSession_relay_eq upstreamEndsFirst (List.replicate 32 7) (List.replicate 96 1) ()
    rfl rfl rfl rfl rfl, hbg, hfg]
  refine ⟨rfl, rfl, rfl, ?_⟩
  decide

/-! ## The server proof -/

theorem serverProof_eq (ent : Entity) (signBlob : Bytes → Bytes → Bytes → Bytes)
    (certRaw : Bytes) (hvk : ent.vk.length = 32)
    (hsig : (signBlob ent.sk ent.vk certRaw).length = 64) :
    serverProof ent signBlob certRaw = ent.vk ++ signBlob ent.sk ent.vk certRaw := by
  have htail : ((makeBytes (32 + 64)).drop ent.vk.length).length = 64 := by
    rw [List.length_drop, makeBytes_length, hvk]
  have h1 : goCopy (makeBytes (32 + 64)) ent.vk =
      ent.vk ++ (makeBytes (32 + 64)).drop ent.vk.length := by
    unfold goCopy
    rw [List.take_of_length_le (by rw [makeBytes_length, hvk]; decide)]
  unfold serverProof
  simp only [h1]
  rw [List.take_left' hvk, List.drop_left' hvk]
  unfold goCopy
  rw [htail, List.take_of_length_le (by omega), List.drop_eq_nil_of_le (by omega),
    List.append_nil]

theorem endWith_main (process : Outcome) (r : SessionResult) :
    (endWith process r).main = r.main := by
  unfold endWith
  split <;> rfl

theorem sessionsOf_get (proof : Bytes) (process : Outcome) :
    ∀ (accepts : List (Except String SessionEnv)) (i : Nat) (env : SessionEnv),
      (∀ j, j < i → ∃ e, accepts[j]? = some (.ok e)) → accepts[i]? = some (.ok env) →
      (sessionsOf proof process accepts)[i]? =
        some (endWith process { handleSession env with
          main := Event.write Conn.conn proof :: (handleSession env).main }) := by
  intro accepts
  induction accepts with
  | nil => intro i env _ h; simp at h
  | cons a rest ih =>
    intro i env hbefore hi
    cases i with
    | zero =>
      simp only [List.getElem?_cons_zero, Option.some.injEq] at hi
      subst hi
      simp [sessionsOf]
    | succ k =>
      obtain ⟨e, he⟩ := hbefore 0 (Nat.succ_pos k)
      simp only [List.getElem?_cons_zero, Option.some.injEq] at he
      subst he
      simp only [List.getElem?_cons_succ] at hi
      have hrest : ∀ j, j < k → ∃ e1, rest[j]? = some (.ok e1) := by
        intro j hj
        have := hbefore (j + 1) (Nat.succ_lt_succ hj)
        simpa using this
      simp only [sessionsOf, List.getElem?_cons_succ]
      exact ih k env hrest hi

theorem handleSession_starts_with_nonce (env : SessionEnv) (rnd : Bytes)
    (hrand : env.rand = .ok rnd) :
    ∃ rest, (handleSession env).main = Event.write Conn.conn (goCopy (makeBytes 32) rnd) :: rest := by
  unfold handleSession
  simp only [hrand]
  repeat' (first | exact ⟨_, rfl⟩ | split)

/-- C9: with a 32-byte verify-key and a 64-byte signature, the proof built by
`doserver` is the verify-key followed by the signature of the relay identity
over the raw bytes of the certificate, 96 bytes in all; it is computed once,
before the accept loop, and for every accepted connection the first event is
the write of these same 96 bytes, followed by what `handleSession` does, which
starts with the write of the nonce of the session. -/
theorem doserver_sends_proof_first (ent : Entity) (signBlob : Bytes → Bytes → Bytes → Bytes)
    (certRaw : Bytes) (accepts : List (Except String SessionEnv))
    (hvk : ent.vk.length = 32) (hsig : (signBlob ent.sk ent.vk certRaw).length = 64) :
    serverProof ent signBlob certRaw = ent.vk ++ signBlob ent.sk ent.vk certRaw ∧
    (serverProof ent signBlob certRaw).length = 96 ∧
    (serverProof ent signBlob certRaw).take 32 = ent.vk ∧
    (serverProof ent signBlob certRaw).drop 32 = signBlob ent.sk ent.vk certRaw ∧
    ∀ (i : Nat) (env : SessionEnv),
      (∀ j, j < i → ∃ e, accepts[j]? = some (.ok e)) → accepts[i]? = some (.ok env) →
      ∃ r, (doserver ent signBlob certRaw accepts).1[i]? = some r ∧
        r.main = Event.write Conn.conn (serverProof ent signBlob certRaw) ::
          (handleSession env).main ∧
        ∀ rnd, env.rand = .ok rnd → ∃ rest,
          r.main = Event.write Conn.conn (serverProof ent signBlob certRaw) ::
            Event.write Conn.conn (goCopy (makeBytes 32) rnd) :: rest := by
  have heq := serverProof_eq ent signBlob certRaw hvk hsig
  refine ⟨heq, ?_, ?_, ?_, ?_⟩
  · rw [heq, List.length_append, hvk, hsig]
  · rw [heq, List.take_left' hvk]
  · rw [heq, List.drop_left' hvk]
  · intro i env hbefore hi
    refine ⟨_, sessionsOf_get _ _ accepts i env hbefore hi, endWith_main _ _, ?_⟩
    intro rnd hrand
    obtain ⟨rest, hrest⟩ := handleSession_starts_with_nonce env rnd hrand
    exact ⟨rest, by rw [endWith_main]; simp only [hrest]⟩

/-! ## Witnesses -/

/-- C1, witness: a directory with one valid wildcard grant of `1.0/full`. -/
theorem isVKAllowed_true_iff_witness :
    wildcardDirectory.findDOTsFromVK "" =
      .ok ([⟨everyone, "1.0/full"⟩], [RegistryValidity.StateValid]) ∧
    [(⟨everyone, "1.0/full"⟩ : DOT)].length = [RegistryValidity.StateValid].length ∧
    ((∃ b, isVKAllowed [1, 2, 3] wildcardDirectory "" = .ok b) ∧
     (isVKAllowed [1, 2, 3] wildcardDirectory "" = .ok true ↔
      ∃ (i : Nat) (d : DOT), [(⟨everyone, "1.0/full"⟩ : DOT)][i]? = some d ∧
        [RegistryValidity.StateValid][i]? = some RegistryValidity.StateValid ∧
        d.accessURISuffix = "1.0/full" ∧ (d.receiverVK = [1, 2, 3] ∨ d.receiverVK = everyone))) :=
  ⟨rfl, rfl, isVKAllowed_true_iff [1, 2, 3] wildcardDirectory ""
    [⟨everyone, "1.0/full"⟩] [RegistryValidity.StateValid] rfl rfl⟩

/-- C2, witness: an admitted session. -/
theorem handleSession_admitted_witness :
    admittedIdle.rand = .ok (List.replicate 32 7) ∧
    ioReadFull admittedIdle.incoming (makeBytes (32 + 64)) = .ok (List.replicate 96 1) ∧
    admittedIdle.verifyBlob ((List.replicate 96 1).take 32) ((List.replicate 96 1).drop 32)
      (goCopy (makeBytes 32) (List.replicate 32 7)) = true ∧
    isVKAllowed ((List.replicate 96 1).take 32) admittedIdle.cl admittedIdle.ourKey = .ok true ∧
    ((goCopy (makeBytes 32) (List.replicate 32 7)).length = 32 ∧
     (List.replicate 96 1).length = 96 ∧
     (∃ rest, (handleSession admittedIdle).main =
        admittedHandshake (goCopy (makeBytes 32) (List.replicate 32 7)) ++ rest ∧
       Event.dial ∉ rest) ∧
     bytesWritten Conn.conn (handleSession admittedIdle).main =
       goCopy (makeBytes 32) (List.replicate 32 7) ++ [79, 75, 65, 89]) :=
  ⟨rfl, rfl, rfl, rfl,
    handleSession_admitted admittedIdle (List.replicate 32 7) (List.replicate 96 1)
      rfl rfl rfl rfl⟩

/-- C3, witness: a session with a valid signature and an empty directory. -/
theorem handleSession_not_allowed_witness :
    ungranted.rand = .ok (List.replicate 32 7) ∧
    ioReadFull ungranted.incoming (makeBytes (32 + 64)) = .ok (List.replicate 96 1) ∧
    ungranted.verifyBlob ((List.replicate 96 1).take 32) ((List.replicate 96 1).drop 32)
      (goCopy (makeBytes 32) (List.replicate 32 7)) = true ∧
    isVKAllowed ((List.replicate 96 1).take 32) ungranted.cl ungranted.ourKey = .ok false ∧
    ((handleSession ungranted).main =
      [Event.write Conn.conn (goCopy (makeBytes 32) (List.replicate 32 7)),
        Event.println "client signature valid", Event.findDOTs,
        Event.write Conn.conn (bytesOf "FAIL"), Event.close Conn.conn] ∧
     bytesWritten Conn.conn (handleSession ungranted).main =
       goCopy (makeBytes 32) (List.replicate 32 7) ++ [70, 65, 73, 76] ∧
     (handleSession ungranted).outcome =
       Outcome.panicked "client is not permitted to use this ragent" ∧
     (handleSession ungranted).relay = [] ∧ (handleSession ungranted).relayOutcome = none) :=
  ⟨rfl, rfl, rfl, rfl,
    handleSession_not_allowed ungranted (List.replicate 32 7) (List.replicate 96 1)
      rfl rfl rfl rfl⟩

/-- C4, witness: a session whose reply does not verify. -/
theorem handleSession_bad_signature_witness :
    badSignature.rand = .ok (List.replicate 32 7) ∧
    ioReadFull badSignature.incoming (makeBytes (32 + 64)) = .ok (List.replicate 96 1) ∧
    badSignature.verifyBlob ((List.replicate 96 1).take 32) ((List.replicate 96 1).drop 32)
      (goCopy (makeBytes 32) (List.replicate 32 7)) = false ∧
    ((handleSession badSignature).main =
      [Event.write Conn.conn (goCopy (makeBytes 32) (List.replicate 32 7))] ∧
     (handleSession badSignature).outcome = Outcome.panicked "client sig invalid" ∧
     bytesWritten Conn.conn (handleSession badSignature).main =
       goCopy (makeBytes 32) (List.replicate 32 7) ∧
     Event.findDOTs ∉ (handleSession badSignature).main ∧
     Event.dial ∉ (handleSession badSignature).main ∧
     (handleSession badSignature).relay = [] ∧
     (handleSession badSignature).relayOutcome = none) :=
  ⟨rfl, rfl, rfl,
    handleSession_bad_signature badSignature (List.replicate 32 7) (List.replicate 96 1)
      rfl rfl rfl⟩

/-- C5, witness of the amended statement: a session whose directory query
fails with `agent unreachable`. -/
theorem handleSession_failure_panics_witness :
    handshakeFails queryFails (Outcome.panicked "agent unreachable") ∧
    ((handleSession queryFails).outcome = Outcome.panicked "agent unreachable" ∧
     ¬ relayStarted (handleSession queryFails) ∧
     (Outcome.panicked "agent unreachable" = Outcome.blocked → ∃ rnd, queryFails.rand = .ok rnd ∧
       (handleSession queryFails).main = [Event.write Conn.conn (goCopy (makeBytes 32) rnd)]) ∧
     (∀ rnd reply, queryFails.rand = .ok rnd →
       ioReadFull queryFails.incoming (makeBytes (32 + 64)) = .ok reply →
       queryFails.verifyBlob (reply.take 32) (reply.drop 32) (goCopy (makeBytes 32) rnd) = true →
       noGrantFor (reply.take 32) queryFails.cl queryFails.ourKey →
       (handleSession queryFails).main =
         [Event.write Conn.conn (goCopy (makeBytes 32) rnd),
           Event.println "client signature valid", Event.findDOTs,
           Event.write Conn.conn (bytesOf "FAIL"), Event.close Conn.conn]) ∧
     (Outcome.panicked "agent unreachable" ≠ Outcome.blocked →
       (∃ msg, Outcome.panicked "agent unreachable" = Outcome.panicked msg) ∧
       ∀ (ent : Entity) (signBlob : Bytes → Bytes → Bytes → Bytes) (certRaw : Bytes)
         (accepts : List (Except String SessionEnv)), Except.ok queryFails ∈ accepts →
         (∃ m, (doserver ent signBlob certRaw accepts).2 = Outcome.panicked m) ∧
         ∀ r ∈ (doserver ent signBlob certRaw accepts).1,
           r.outcome ≠ Outcome.blocked ∧ r.relayOutcome ≠ some Outcome.blocked)) :=
  have h : handshakeFails queryFails (Outcome.panicked "agent unreachable") :=
    ⟨List.replicate 32 7, rfl, Or.inr (Or.inr ⟨List.replicate 96 1, rfl,
      Or.inr ⟨rfl, Or.inl ⟨"agent unreachable", rfl, rfl⟩⟩⟩)⟩
  ⟨h, handleSession_failure_panics queryFails (Outcome.panicked "agent unreachable") h⟩

/-- C6, witness: an admitted session, which dials. -/
theorem handleSession_relay_only_after_admission_witness :
    relayStarted (handleSession admittedIdle) ∧
    ∃ rnd reply, admittedIdle.rand = .ok rnd ∧
      ioReadFull admittedIdle.incoming (makeBytes (32 + 64)) = .ok reply ∧
      admittedIdle.verifyBlob (reply.take 32) (reply.drop 32) (goCopy (makeBytes 32) rnd) = true ∧
      isVKAllowed (reply.take 32) admittedIdle.cl admittedIdle.ourKey = .ok true ∧
      ∃ rest, (handleSession admittedIdle).main =
          admittedHandshake (goCopy (makeBytes 32) rnd) ++ rest ∧
        Event.dial ∉ rest :=
  have h : relayStarted (handleSession admittedIdle) := Or.inl (by decide)
  ⟨h, handleSession_relay_only_after_admission admittedIdle h⟩

/-- C9, witness: a 32-byte key, a 64-byte signature and two accepted connections. -/
theorem doserver_sends_proof_first_witness :
    sampleEntity.vk.length = 32 ∧
    (sampleSign sampleEntity.sk sampleEntity.vk [48, 130]).length = 64 ∧
    (serverProof sampleEntity sampleSign [48, 130] =
        sampleEntity.vk ++ sampleSign sampleEntity.sk sampleEntity.vk [48, 130] ∧
     (serverProof sampleEntity sampleSign [48, 130]).length = 96 ∧
     (serverProof sampleEntity sampleSign [48, 130]).take 32 = sampleEntity.vk ∧
     (serverProof sampleEntity sampleSign [48, 130]).drop 32 =
        sampleSign sampleEntity.sk sampleEntity.vk [48, 130] ∧
     ∀ (i : Nat) (env : SessionEnv),
      (∀ j, j < i → ∃ e, sampleAccepts[j]? = some (.ok e)) →
      sampleAccepts[i]? = some (.ok env) →
      ∃ r, (doserver sampleEntity sampleSign [48, 130]
          sampleAccepts).1[i]? = some r ∧
        r.main = Event.write Conn.conn (serverProof sampleEntity sampleSign [48, 130]) ::
          (handleSession env).main ∧
        ∀ rnd, env.rand = .ok rnd → ∃ rest,
          r.main = Event.write Conn.conn (serverProof sampleEntity sampleSign [48, 130]) ::
            Event.write Conn.conn (goCopy (makeBytes 32) rnd) :: rest) :=
  ⟨by decide, by decide,
    doserver_sends_proof_first sampleEntity sampleSign [48, 130]
      sampleAccepts (by decide) (by decide)⟩

end Ragent
